import Mathlib

set_option maxHeartbeats 1000000

/-!
Verification development for the filter-translation core of
graphene-sqlalchemy-filter (filters.py, connection_field.py).

Strings from the Python side are embedded as lists of characters
(`Str`), so that the suffix arithmetic of `_split_graphql_field`
can be reasoned about directly.  Operator identifiers (the keys of
`GRAPHQL_EXPRESSION_NAMES`) are kept as Lean `String`s since they are
only ever compared for equality.
-/

abbrev Str := List Char

/-- filters.py line 84: `DELIMITER = '_'`. -/
def DELIMITER : Char := '_'

/-- filters.py line 85: `RANGE_BEGIN = 'begin'`. -/
def RANGE_BEGIN : Str := "begin".data

/-- filters.py line 86: `RANGE_END = 'end'`. -/
def RANGE_END : Str := "end".data

/-- filters.py lines 158-177: `FilterSet.GRAPHQL_EXPRESSION_NAMES`, in dict
insertion order.  Each operator identifier is paired with its GraphQL render
name; `eq` renders as the empty name. -/
def GRAPHQL_EXPRESSION_NAMES : List (String × Str) :=
  [("eq", "".data), ("ne", "ne".data), ("like", "like".data),
   ("ilike", "ilike".data), ("is_null", "is_null".data), ("in", "in".data),
   ("not_in", "not_in".data), ("lt", "lt".data), ("lte", "lte".data),
   ("gt", "gt".data), ("gte", "gte".data), ("range", "range".data),
   ("contains", "contains".data), ("contained_by", "contained_by".data),
   ("overlap", "overlap".data), ("and", "and".data), ("or", "or".data),
   ("not", "not".data)]

/-- Stable insertion (descending by render-name length): mirrors the ordering
produced by Python's stable `sorted(items, key=lambda x: -len(x[1]))` used in
`_split_graphql_field` (filters.py lines 881-883). -/
def insertByNameLen (x : String × Str) :
    List (String × Str) → List (String × Str)
  | [] => [x]
  | y :: ys =>
    if y.2.length ≤ x.2.length then x :: y :: ys else y :: insertByNameLen x ys

/-- Stable sort, descending by render-name length (filters.py lines 881-883). -/
def sortByNameLenDesc : List (String × Str) → List (String × Str)
  | [] => []
  | x :: xs => insertByNameLen x (sortByNameLenDesc xs)

/-- filters.py lines 881-883: `expression_to_name = sorted(..., key=-len)`. -/
def expressionToName (reg : List (String × Str)) : List (String × Str) :=
  sortByNameLenDesc reg

/-- The loop body of `_split_graphql_field` (filters.py lines 885-897): walk
the sorted `(expression, name)` pairs; an empty render name is remembered as
the fallback expression; the first render name that matches as a
`'_' + name` suffix wins and the suffix is stripped; if nothing matches and
no empty render name was seen, fail with `Operator not found`. -/
def splitGo (graphqlField : Str) :
    List (String × Str) → Option String → Except String (Str × String)
  | [], none =>
    .error ("Operator not found \"" ++ String.mk graphqlField ++ "\"")
  | [], some e => .ok (graphqlField, e)
  | (expression, name) :: rest, emptyExpr =>
    if name = [] then splitGo graphqlField rest (some expression)
    else if (DELIMITER :: name) <:+ graphqlField then
      .ok (graphqlField.take (graphqlField.length - (DELIMITER :: name).length),
           expression)
    else splitGo graphqlField rest emptyExpr

/-- `FilterSet._split_graphql_field` (filters.py lines 866-897), parameterised
by the class's `GRAPHQL_EXPRESSION_NAMES` registry (subclasses may extend it
via `EXTRA_EXPRESSIONS`). -/
def splitGraphqlFieldWith (reg : List (String × Str)) (graphqlField : Str) :
    Except String (Str × String) :=
  splitGo graphqlField (expressionToName reg) none

/-- `_split_graphql_field` over the default registry. -/
def splitGraphqlField (graphqlField : Str) : Except String (Str × String) :=
  splitGraphqlFieldWith GRAPHQL_EXPRESSION_NAMES graphqlField

/-- Key construction of `_generate_filter_fields` (filters.py lines 677-681):
`key = field_name`, and if the operator's render name is non-empty,
`key += DELIMITER + graphql_name`. -/
def graphqlFilterKey (fieldName : Str) (graphqlName : Str) : Str :=
  if graphqlName = [] then fieldName else fieldName ++ DELIMITER :: graphqlName

/-- The key set emitted by `_generate_filter_fields` (filters.py lines
675-697) for one attribute: one external key per operator, computed with
`graphqlFilterKey` from the registered render name (a missing operator is a
Python `KeyError`, hence `Option`). -/
def generateFilterKeys (reg : List (String × Str)) (expressions : List String)
    (fieldName : Str) : Option (List Str) :=
  expressions.mapM
    (fun op => ((reg.find? (fun p => p.1 = op)).map
      (fun p => graphqlFilterKey fieldName p.2)))



/-!
Values, predicates and filter trees.

GraphQL scalar arguments are embedded as `Val` (list arguments as the
`FVal.slist` case below); filter predicates produced by `FILTER_FUNCTIONS`
are embedded as an explicit syntax tree (`Leaf` / `SPred`), since SQLAlchemy
clause objects are opaque to the translator.  `SPred`/`SPredList` and the
filter-tree types are mutual inductives (rather than nested `List`s) so that
all translation functions are structurally recursive and compute by `rfl`.
-/

inductive Val where
  | vnull
  | vint (n : Int)
  | vstr (s : Str)
  | vbool (b : Bool)
  | venum (s : Str)
deriving DecidableEq

/-- Python truthiness, as used by `if v` in the `is_null` filter function. -/
def Val.truthy : Val → Bool
  | .vnull => false
  | .vint n => decide (n ≠ 0)
  | .vstr s => decide (s ≠ [])
  | .vbool b => b
  | .venum _ => true

/-- One SQLAlchemy comparison clause, as built by an entry of
`FilterSet.FILTER_FUNCTIONS` (filters.py lines 210-226).  The PostgreSQL
`cast` calls of `_eq_filter`/`contains`/... only adjust SQL typing and are
not represented. -/
inductive Leaf where
  | eqL (f : Str) (v : Val)
  | likeL (f : Str) (v : Val)
  | ilikeL (f : Str) (v : Val)
  | isNullL (f : Str)
  | isNotNullL (f : Str)
  | inListL (f : Str) (vs : List Val)
  | notInL (f : Str) (vs : List Val)
  | ltL (f : Str) (v : Val)
  | lteL (f : Str) (v : Val)
  | gtL (f : Str) (v : Val)
  | gteL (f : Str) (v : Val)
  | betweenL (f : Str) (lo hi : Val)
  | containsL (f : Str) (v : Val)
  | containedByL (f : Str) (v : Val)
  | overlapL (f : Str) (v : Val)
deriving DecidableEq

mutual
inductive SPred where
  | leaf (l : Leaf)
  | customP (k : Str)
  | andP (ps : SPredList)
  | orP (ps : SPredList)
  | notP (p : SPred)
  | anyP (rel : Str) (p : SPred)
  | hasP (rel : Str) (p : SPred)
inductive SPredList where
  | pnil
  | pcons (p : SPred) (ps : SPredList)
end

def SPredList.ofList : List SPred → SPredList
  | [] => .pnil
  | p :: ps => .pcons p (SPredList.ofList ps)

/-!
GraphQL filter values: a scalar, a list of scalars (for `in`/`not_in`),
a nested input object (Python dict), or a list of input objects (only
produced for and/or).
-/
mutual
inductive FVal where
  | scalar (v : Val)
  | slist (vs : List Val)
  | fdict (t : FTree)
  | flist (ts : FForest)
inductive FTree where
  | fnil
  | fcons (key : Str) (v : FVal) (rest : FTree)
inductive FForest where
  | qnil
  | qcons (t : FTree) (rest : FForest)
end

def FForest.append : FForest → FForest → FForest
  | .qnil, b => b
  | .qcons t r, b => .qcons t (FForest.append r b)

def FTree.appendT : FTree → FTree → FTree
  | .fnil, b => b
  | .fcons k v r, b => .fcons k v (FTree.appendT r b)

/-!
The model graph, as seen through `sqlalchemy.inspection`: a model name maps
to its ORM attributes.  A column may carry an enum member list (mirroring
`sqltypes.Enum.enum_class`); a relationship records `uselist` and the target
model (`descr.mapper.class_`).  Association proxies are not represented.
-/

inductive SAttr where
  | column (name : Str) (enumVals : Option (List Str))
  | relationship (name : Str) (uselist : Bool) (target : String)

abbrev Env := List (String × List SAttr)

def SAttr.name : SAttr → Str
  | .column n _ => n
  | .relationship n _ _ => n

def attrsOf (env : Env) (model : String) : List SAttr :=
  ((env.find? (fun p => p.1 = model)).map Prod.snd).getD []

/-- `getattr(model, field)`: any ORM attribute with the given name. -/
def findAttr (attrs : List SAttr) (field : Str) : Option SAttr :=
  attrs.find? (fun a => a.name = field)

/-- The scan of `all_orm_descriptors` in `_translate_many_filter`
(filters.py lines 995-1016): the first RelationshipProperty whose key equals
the raw filter key, together with its `uselist` flag and target model. -/
def findRel : List SAttr → Str → Option (Bool × String)
  | [], _ => none
  | .column _ _ :: rest, k => findRel rest k
  | .relationship n u t :: rest, k =>
    if n = k then some (u, t) else findRel rest k

/-- The key set of `FilterSet.FILTER_FUNCTIONS` (filters.py lines 210-226);
`filter_function = cls.FILTER_FUNCTIONS[expression]` raises `KeyError` for
anything else. -/
def FILTER_FUNCTION_KEYS : List String :=
  ["eq", "ne", "like", "ilike", "is_null", "in", "not_in", "lt", "lte",
   "gt", "gte", "range", "contains", "contained_by", "overlap"]

def lookupFEntry : FTree → Str → Option FVal
  | .fnil, _ => none
  | .fcons k v rest, key => if k = key then some v else lookupFEntry rest key

def fvalTruthy : FVal → Bool
  | .scalar v => v.truthy
  | .slist [] => false
  | .slist _ => true
  | .fdict .fnil => false
  | .fdict _ => true
  | .flist .qnil => false
  | .flist _ => true

/-- Application of one `FILTER_FUNCTIONS` entry (filters.py lines 210-226):
`is_null` dispatches on the truthiness of its argument; `range` reads the
`begin`/`end` entries of its input object; `ne` is `not_(_eq_filter(...))`;
the rest wrap the field and value in the corresponding comparison. -/
def applyFilterFunction (expression : String) (f : Str) (value : FVal) :
    Except String SPred :=
  if expression = "is_null" then
    .ok (.leaf (if fvalTruthy value then .isNullL f else .isNotNullL f))
  else if expression = "range" then
    match value with
    | .fdict es =>
      match lookupFEntry es RANGE_BEGIN, lookupFEntry es RANGE_END with
      | some (.scalar lo), some (.scalar hi) => .ok (.leaf (.betweenL f lo hi))
      | _, _ => .error "KeyError: range bounds"
    | _ => .error "TypeError: range filter expects an input object"
  else if expression = "in" then
    match value with
    | .slist vs => .ok (.leaf (.inListL f vs))
    | _ => .error "TypeError: in expects a list"
  else if expression = "not_in" then
    match value with
    | .slist vs => .ok (.leaf (.notInL f vs))
    | _ => .error "TypeError: not_in expects a list"
  else
    match value with
    | .scalar v =>
      if expression = "eq" then .ok (.leaf (.eqL f v))
      else if expression = "ne" then .ok (.notP (.leaf (.eqL f v)))
      else if expression = "like" then .ok (.leaf (.likeL f v))
      else if expression = "ilike" then .ok (.leaf (.ilikeL f v))
      else if expression = "lt" then .ok (.leaf (.ltL f v))
      else if expression = "lte" then .ok (.leaf (.lteL f v))
      else if expression = "gt" then .ok (.leaf (.gtL f v))
      else if expression = "gte" then .ok (.leaf (.gteL f v))
      else if expression = "contains" then .ok (.leaf (.containsL f v))
      else if expression = "contained_by" then
        .ok (.leaf (.containedByL f v))
      else if expression = "overlap" then .ok (.leaf (.overlapL f v))
      else .error ("KeyError: " ++ expression)
    | _ => .error "TypeError: unsupported filter value"

/-- `enum_class(v)`: coercing one raw value into an enum member raises
`ValueError` when the value is not a member. -/
def enumCoerceVal (vals : List Str) (v : Val) : Except String Val :=
  match v with
  | .vstr s =>
    if s ∈ vals then .ok (.venum s) else .error "ValueError: invalid enum"
  | _ => .error "ValueError: invalid enum"

/-- The enum coercion step of `_translate_many_filter` (filters.py lines
1057-1063): for an enum-typed column, a list value is coerced elementwise,
a scalar value directly; other columns pass values through unchanged. -/
def enumCoerce (a : SAttr) (value : FVal) : Except String FVal :=
  match a with
  | .column _ (some vals) =>
    match value with
    | .slist vs => do
      let ws ← vs.mapM (enumCoerceVal vals)
      .ok (.slist ws)
    | .scalar v => do
      let w ← enumCoerceVal vals v
      .ok (.scalar w)
    | _ => .error "ValueError: invalid enum"
  | _ => .ok value

/-- One value of the mutable `result` dict threaded through
`_translate_many_filter`: either a still-unfilled sub-dict or a predicate. -/
inductive RVal where
  | rdict
  | rpred (p : SPred)

/-- The three entries of `join_by_map` (filters.py lines 934-938):
`and_`, `or_`, and `lambda *x: not_(and_(*x))`. -/
inductive JoinKind where
  | jand
  | jor
  | jnotAnd

def JoinKind.apply : JoinKind → List SPred → SPred
  | .jand, ps => .andP (SPredList.ofList ps)
  | .jor, ps => .orP (SPredList.ofList ps)
  | .jnotAnd, ps => .notP (.andP (SPredList.ofList ps))

/-- `[v for v in result.values() if not isinstance(v, dict)]`. -/
def nonDictPreds (es : List (Str × RVal)) : List SPred :=
  es.filterMap (fun e => match e.2 with | .rpred p => some p | .rdict => none)

/-- The `parent_attr`/`expression_type` wrap: `parent_attr.any(...)` when the
relationship is collection-valued, `parent_attr.has(...)` otherwise
(filters.py lines 1074-1085). -/
def wrapParentAttr (pa : Option (Str × Bool)) (p : SPred) : SPred :=
  match pa with
  | none => p
  | some (rel, uselist) => if uselist then .anyP rel p else .hasP rel p

/-- The tail of `_translate_many_filter` (filters.py lines 1067-1086): an
empty result dict writes nothing into the parent; otherwise the non-dict
values are joined with `join_by` and wrapped through `parent_attr`. -/
def finishLevel (jb : JoinKind) (pa : Option (Str × Bool))
    (es : List (Str × RVal)) : Option SPred :=
  match es with
  | [] => none
  | _ => some (wrapParentAttr pa (jb.apply (nonDictPreds es)))

def finishRVal (jb : JoinKind) (pa : Option (Str × Bool))
    (es : List (Str × RVal)) : RVal :=
  match finishLevel jb pa es with
  | none => .rdict
  | some p => .rpred p

/-- The plain-attribute branch of `_translate_many_filter` (filters.py lines
1051-1065): `getattr(model, field)` failing is `Field not found`; then enum
coercion and the filter function are applied. -/
def translateLeaf (env : Env) (model : String) (field : Str)
    (expression : String) (value : FVal) : Except String RVal :=
  match findAttr (attrsOf env model) field with
  | none => .error ("Field not found: " ++ String.mk field)
  | some a => do
    let v2 ← enumCoerce a value
    let p ← applyFilterFunction expression field v2
    .ok (.rpred p)

/-!
`FilterSet._translate_many_filter` (filters.py lines 899-1086), written as a
purely functional recursion.  The mutable `result`/`parent_result` dicts of
the source are replaced by returning the per-level entry list
(`List (Str × RVal)`) and letting each call site apply `finishLevel` /
`finishRVal`, exactly where the source writes `parent_result[parent]`.
The `join_by` argument of the source is likewise only consumed by that
tail, so it appears here as the `JoinKind` given to `finishLevel` at each
call site rather than as a parameter of the recursion.  The `query` object
is threaded through the source only so that custom filters may replace it;
custom filters (the `cls._custom_filters` set, here the parameter `cf`) are
embedded as the opaque `SPred.customP`, so the query needs no threading.
-/
mutual
def translateMany (env : Env) (reg : List (String × Str)) (cf : List Str)
    (model : String) (pa : Option (Str × Bool)) :
    FTree → Except String (List (Str × RVal))
  | .fnil => .ok []
  | .fcons key value rest => do
    let rv ← translateEntry env reg cf model pa key value
    let others ← translateMany env reg cf model pa rest
    .ok ((key, rv) :: others)

def translateEntry (env : Env) (reg : List (String × Str)) (cf : List Str)
    (model : String) (pa : Option (Str × Bool)) (key : Str)
    (value : FVal) : Except String RVal :=
  if key ∈ cf then .ok (.rpred (.customP key))
  else if key = "and".data ∨ key = "or".data then
    match value with
    | .flist ts => do
      let os ← translateForest env reg cf model pa ts
      .ok (.rpred ((if key = "and".data then JoinKind.jand
        else JoinKind.jor).apply (os.filterMap id)))
    | _ => .error "TypeError: boolean operator expects a list"
  else if key = "not".data then
    match value with
    | .fdict t => do
      let es ← translateMany env reg cf model pa t
      .ok (finishRVal .jnotAnd pa es)
    | _ => .error "TypeError: not expects an input object"
  else do
    let fe ← splitGraphqlFieldWith reg key
    if fe.2 ∈ FILTER_FUNCTION_KEYS then
      match value with
      | .fdict t =>
        if fe.2 = "range" then
          translateLeaf env model fe.1 fe.2 (.fdict t)
        else
          match findRel (attrsOf env model) key with
          | some (uselist, target) => do
            let es ← translateMany env reg cf target (some (key, uselist)) t
            .ok (finishRVal .jand (some (key, uselist)) es)
          | none => .ok .rdict
      | _ => translateLeaf env model fe.1 fe.2 value
    else .error ("KeyError: " ++ fe.2)

def translateForest (env : Env) (reg : List (String × Str)) (cf : List Str)
    (model : String) (pa : Option (Str × Bool)) :
    FForest → Except String (List (Option SPred))
  | .qnil => .ok []
  | .qcons t rest => do
    let es ← translateMany env reg cf model pa t
    let os ← translateForest env reg cf model pa rest
    .ok (finishLevel .jand pa es :: os)
end

/-!
`FilterSet.filter` (filters.py lines 819-864) and the alias cache
(filters.py lines 371-509).  Aliases themselves are opaque SQLAlchemy
objects; they are embedded as `Nat` identifiers handed out by a fresh-name
counter, so that Python object identity becomes identifier equality.
-/

abbrev AliasCache := List ((String × Option String) × Nat)

inductive Ctx where
  | cdict (cache : AliasCache)
  | cobj (cache : AliasCache)
  | cplain

structure SQuery where
  preds : List SPred

def SQuery.filterBy (q : SQuery) (p : SPred) : SQuery :=
  ⟨q.preds ++ [p]⟩

def contextTypeWarning : String :=
  "Graphene-SQLAlchemy-Filter: info.context has an unsupported type. " ++
  "Now cls.aliased(info, ...) is not supported. " ++
  "Allowed types: dict and object with __dict__ attribute."

/-- filters.py lines 835-847: attach a fresh alias cache to the context; an
unsupported context type produces a RuntimeWarning and translation
continues. -/
def resetAliases : Ctx → Ctx × List String
  | .cdict _ => (.cdict [], [])
  | .cobj _ => (.cobj [], [])
  | .cplain => (.cplain, [contextTypeWarning])

/-- `FilterSet.filter` (filters.py lines 819-864): reset the alias cache,
translate, and add the root predicate to the query only when the root entry
of `result` was replaced by a non-dict value.  Returns the emitted warnings
alongside the outcome. -/
def filterSetFilter (env : Env) (reg : List (String × Str)) (cf : List Str)
    (model : String) (ctx : Ctx) (q : SQuery) (filters : FTree) :
    List String × Except String (SQuery × Ctx) :=
  let rc := resetAliases ctx
  (rc.2,
    do
      let es ← translateMany env reg cf model none filters
      match finishLevel .jand none es with
      | some p => .ok (q.filterBy p, rc.1)
      | none => .ok (q, rc.1))

/-- `FilterSet._aliases_from_info` (filters.py lines 454-482): a context that
is neither a mapping nor an attribute bag raises `RuntimeError`. -/
def aliasesFromInfo : Ctx → Except String AliasCache
  | .cdict c => .ok c
  | .cobj c => .ok c
  | .cplain => .error "RuntimeError: Not supported with info.context type"

def setAliasCache : Ctx → AliasCache → Ctx
  | .cdict _, c => .cdict c
  | .cobj _, c => .cobj c
  | .cplain, _ => .cplain

structure AliasSt where
  fresh : Nat

/-- `FilterSet.aliased` on the deprecated resolve-info path (filters.py lines
394-418): look up `(element, name)` in the context cache; on miss create a
fresh alias and store it (`filter_aliases[key] = alias` runs because the
first argument is not a Query). -/
def aliasedFromInfo (ctx : Ctx) (st : AliasSt) (entity : String)
    (name : Option String) : Except String (Nat × Ctx × AliasSt) := do
  let cache ← aliasesFromInfo ctx
  match cache.find? (fun e => e.1 = (entity, name)) with
  | some e => .ok (e.2, ctx, st)
  | none =>
    .ok (st.fresh, setAliasCache ctx (cache ++ [((entity, name), st.fresh)]),
      ⟨st.fresh + 1⟩)

/-- `FilterSet.aliased` on the query path (filters.py lines 394-418): the
cache is `_aliases_from_query`, derived from the query's join entities; a
miss creates a fresh alias but does NOT store it — the
`filter_aliases[key] = alias` write is guarded by
`if not isinstance(query, Query)`. -/
def aliasedFromQuery (joinEntities : AliasCache) (st : AliasSt)
    (entity : String) (name : Option String) : Nat × AliasSt :=
  match joinEntities.find? (fun e => e.1 = (entity, name)) with
  | some e => (e.2, st)
  | none => (st.fresh, ⟨st.fresh + 1⟩)

/-!
Semantics of predicates.  Leaf clauses, custom clauses and the
`any`/`has` existence tests are interpreted through an abstract
interpretation `Interp` (they are opaque SQLAlchemy constructs); the boolean
combinators `and_`/`or_`/`not_` get their logical meaning, with the empty
conjunction true and the empty disjunction false.
-/

structure Interp where
  leafI : Leaf → Prop
  customI : Str → Prop
  anyI : Str → SPred → Prop
  hasI : Str → SPred → Prop

mutual
def SPred.eval (I : Interp) : SPred → Prop
  | .leaf l => I.leafI l
  | .customP k => I.customI k
  | .andP ps => SPredList.evalConj I ps
  | .orP ps => SPredList.evalDisj I ps
  | .notP p => ¬ SPred.eval I p
  | .anyP r p => I.anyI r p
  | .hasP r p => I.hasI r p
def SPredList.evalConj (I : Interp) : SPredList → Prop
  | .pnil => True
  | .pcons p ps => SPred.eval I p ∧ SPredList.evalConj I ps
def SPredList.evalDisj (I : Interp) : SPredList → Prop
  | .pnil => False
  | .pcons p ps => SPred.eval I p ∨ SPredList.evalDisj I ps
end

/-!
The automatic operator list for the `ALL` sentinel
(`_recursively_generate_filters`, filters.py lines 741-763).
SQLAlchemy column type classes are embedded as an enumeration with the
`issubclass` relation of the classes that appear in `ALLOWED_FILTERS`
together with some common concrete subclasses; `TSVectorType` is taken as
the real sqlalchemy_utils class (its `object` fallback when sqlalchemy_utils
is absent would make every type a TSVector subclass).
-/

inductive SqlaType where
  | boolean
  | date
  | time
  | dateTime
  | string
  | text
  | tsvector
  | integer
  | bigInteger
  | smallInteger
  | numeric
  | float
  | uuid
  | inet
  | cidr
  | json
  | hstore
  | array
  | largeBinary
deriving DecidableEq

/-- `issubclass` on the embedded type classes: reflexive, plus the real
SQLAlchemy subclass edges `Text <: String`, `BigInteger <: Integer`,
`SmallInteger <: Integer`, `Float <: Numeric`. -/
def sqlaSubclass (a b : SqlaType) : Bool :=
  if a = b then true
  else
    match a, b with
    | .text, .string => true
    | .bigInteger, .integer => true
    | .smallInteger, .integer => true
    | .float, .numeric => true
    | _, _ => false

/-- `FilterSet.ALLOWED_FILTERS` (filters.py lines 179-206), in dict
insertion order. -/
def ALLOWED_FILTERS : List (SqlaType × List String) :=
  [(.boolean, ["eq", "ne"]),
   (.date, ["eq", "lt", "lte", "gt", "gte", "ne", "in", "not_in", "range"]),
   (.time, ["eq", "lt", "lte", "gt", "gte", "ne", "in", "not_in", "range"]),
   (.dateTime,
    ["eq", "lt", "lte", "gt", "gte", "ne", "in", "not_in", "range"]),
   (.string, ["eq", "ne", "like", "ilike", "in", "not_in"]),
   (.tsvector, ["eq", "ne", "like", "ilike", "in", "not_in"]),
   (.integer,
    ["eq", "lt", "lte", "gt", "gte", "ne", "in", "not_in", "range"]),
   (.numeric,
    ["eq", "lt", "lte", "gt", "gte", "ne", "in", "not_in", "range"]),
   (.uuid, ["eq", "ne", "in", "not_in"]),
   (.inet, ["eq", "ne", "in", "not_in"]),
   (.cidr, ["eq", "ne", "in", "not_in"]),
   (.json, ["eq", "ne", "in", "not_in"]),
   (.hstore, ["eq", "ne", "in", "not_in"]),
   (.array,
    ["eq", "ne", "in", "not_in", "lt", "lte", "gt", "gte", "contains",
     "contained_by", "overlap"])]

/-- The `expressions == cls.ALL` branch of `_recursively_generate_filters`
(filters.py lines 741-763): a column with no inferable type (hybrid
attribute) is rejected; otherwise the allowed filters are looked up by the
column type's class, falling back to the first registered superclass in
dict order; no match raises the `Unsupported column type` hint; `is_null`
is appended exactly when the column is nullable. -/
def allAutoExpressions (columnType : Option SqlaType) (nullable : Bool) :
    Except String (List String) :=
  match columnType with
  | none => .error "Unsupported field type for automatic filter binding"
  | some typeClass =>
    match ALLOWED_FILTERS.find? (fun p => p.1 = typeClass) with
    | some p => .ok (p.2 ++ if nullable then ["is_null"] else [])
    | none =>
      match ALLOWED_FILTERS.find? (fun p => sqlaSubclass typeClass p.1) with
      | some p => .ok (p.2 ++ if nullable then ["is_null"] else [])
      | none =>
        .error "Unsupported column type. Hint: use EXTRA_ALLOWED_FILTERS."

/-!
`ModelLoader.batch_load_fn` (connection_field.py lines 150-180) and
`parent_model_object_to_key` (lines 203-215).  The filtered/sorted/joined
query is opaque here; what the loader does with its result is grouping: the
query yields one `(parent key, related objects)` pair per parent row, the
dict comprehension builds a mapping, and the promise resolves one entry per
requested key in batch order, `[]` when absent.
-/

/-- Python dict insert-or-overwrite. -/
def dictUpdate {κ ν : Type} [DecidableEq κ] :
    List (κ × ν) → κ → ν → List (κ × ν)
  | [], k, v => [(k, v)]
  | e :: es, k, v =>
    if e.1 = k then (k, v) :: es else e :: dictUpdate es k v

/-- The dict comprehension over the query result (lines 172-177). -/
def buildObjects {κ ν : Type} [DecidableEq κ] (rows : List (κ × ν)) :
    List (κ × ν) :=
  rows.foldl (fun m r => dictUpdate m r.1 r.2) []

def dictLookup {κ ν : Type} [DecidableEq κ] (m : List (κ × ν)) (k : κ) :
    Option ν :=
  (m.find? (fun e => e.1 = k)).map Prod.snd

/-- `[objects.get(object_id, []) for object_id in keys]` (lines 178-180). -/
def batchLoadFn {κ ρ : Type} [DecidableEq κ] (rows : List (κ × List ρ))
    (keys : List κ) : List (List ρ) :=
  let objects := buildObjects rows
  keys.map (fun k => (dictLookup objects k).getD [])

/-- `parent_model_object_to_key` (lines 203-215): the tuple of primary-key
attribute values of one ORM object (composite keys give longer tuples). -/
def parentModelObjectToKey (pks : List Str) (row : Str → Val) : List Val :=
  pks.map row

/-- The value the last `(k, v)` pair of `rows` assigns to `k` — the
reference reading of a Python dict built by a comprehension. -/
def lastAssoc {κ ν : Type} [DecidableEq κ] (rows : List (κ × ν)) (k : κ) :
    Option ν :=
  rows.foldl (fun acc r => if r.1 = k then some r.2 else acc) none

theorem expressionToName_default :
    expressionToName GRAPHQL_EXPRESSION_NAMES =
      [("contained_by", "contained_by".data), ("contains", "contains".data),
       ("is_null", "is_null".data), ("overlap", "overlap".data),
       ("not_in", "not_in".data), ("ilike", "ilike".data),
       ("range", "range".data), ("like", "like".data), ("lte", "lte".data),
       ("gte", "gte".data), ("and", "and".data), ("not", "not".data),
       ("ne", "ne".data), ("in", "in".data), ("lt", "lt".data),
       ("gt", "gt".data), ("or", "or".data), ("eq", "".data)] := by
  decide

theorem suffix_eq_of_length_eq {l₁ l₂ k : Str} (h₁ : l₁ <:+ k) (h₂ : l₂ <:+ k)
    (h : l₁.length = l₂.length) : l₁ = l₂ := by
  obtain ⟨t₁, rfl⟩ := h₁
  obtain ⟨t₂, e⟩ := h₂
  have hl : t₂.length = t₁.length := by
    have hle := congrArg List.length e
    rw [List.length_append, List.length_append] at hle
    omega
  exact ((List.append_inj e hl).2).symm ▸ rfl

theorem suffix_of_suffix_length_le {l₁ l₂ k : Str} (h₁ : l₁ <:+ k)
    (h₂ : l₂ <:+ k) (h : l₁.length ≤ l₂.length) : l₁ <:+ l₂ := by
  obtain ⟨t₂, rfl⟩ := h₂
  obtain ⟨t₁, e⟩ := h₁
  have hlen : t₁.length = t₂.length + (t₁.length - t₂.length) := by
    have hle := congrArg List.length e
    rw [List.length_append, List.length_append] at hle
    omega
  have hd : l₁ = (t₁ ++ l₁).drop t₁.length := (List.drop_left t₁ l₁).symm
  rw [e, hlen, List.drop_append] at hd
  rw [hd]
  exact List.drop_suffix _ l₂

theorem splitGo_skip_nonmatch (key : Str) (L rest : List (String × Str))
    (acc : Option String)
    (h : ∀ p ∈ L, p.2 ≠ [] ∧ ¬((DELIMITER :: p.2) <:+ key)) :
    splitGo key (L ++ rest) acc = splitGo key rest acc := by
  induction L generalizing acc with
  | nil => rfl
  | cons x xs ih =>
    obtain ⟨e, n⟩ := x
    obtain ⟨hne, hnm⟩ := h (e, n) (by simp)
    simp only [List.cons_append, splitGo]
    rw [if_neg hne, if_neg hnm]
    exact ih acc (fun p hp => h p (List.mem_cons_of_mem _ hp))

theorem splitGo_first_match (key : Str) (op : String) (name : Str)
    (L : List (String × Str)) (acc : Option String)
    (hmem : (op, name) ∈ L) (hne : name ≠ [])
    (hsuf : (DELIMITER :: name) <:+ key)
    (huniq : ∀ p ∈ L, p.2 ≠ [] → (DELIMITER :: p.2) <:+ key →
      p = (op, name)) :
    splitGo key L acc =
      .ok (key.take (key.length - (name.length + 1)), op) := by
  induction L generalizing acc with
  | nil => simp at hmem
  | cons x xs ih =>
    obtain ⟨e, n⟩ := x
    by_cases hn : n = []
    · subst hn
      have hmem2 : (op, name) ∈ xs := by
        rcases List.mem_cons.mp hmem with h | h
        · exact absurd (congrArg Prod.snd h) hne
        · exact h
      simp only [splitGo, if_pos rfl]
      exact ih (some e) hmem2 (fun p hp => huniq p (List.mem_cons_of_mem _ hp))
    · by_cases hs : (DELIMITER :: n) <:+ key
      · have heq := huniq (e, n) (by simp) hn hs
        rw [Prod.mk.injEq] at heq
        obtain ⟨rfl, rfl⟩ := heq
        simp only [splitGo, if_neg hn, if_pos hs, List.length_cons]
      · have hmem2 : (op, name) ∈ xs := by
          rcases List.mem_cons.mp hmem with h | h
          · rw [Prod.mk.injEq] at h
            exact absurd (h.2 ▸ hsuf) hs
          · exact h
        simp only [splitGo, if_neg hn, if_neg hs]
        exact ih acc hmem2 (fun p hp => huniq p (List.mem_cons_of_mem _ hp))

theorem registry_mem_split_order :
    ∀ p ∈ GRAPHQL_EXPRESSION_NAMES,
      p ∈ expressionToName GRAPHQL_EXPRESSION_NAMES := by decide

theorem split_order_mem_registry :
    ∀ p ∈ expressionToName GRAPHQL_EXPRESSION_NAMES,
      p ∈ GRAPHQL_EXPRESSION_NAMES := by decide

theorem splitGraphqlField_roundtrip (attr : Str) (op : String) (name : Str)
    (hmem : (op, name) ∈ GRAPHQL_EXPRESSION_NAMES)
    (huniq : ∀ p ∈ GRAPHQL_EXPRESSION_NAMES, p.2 ≠ [] →
      (DELIMITER :: p.2) <:+ graphqlFilterKey attr name → p = (op, name)) :
    splitGraphqlField (graphqlFilterKey attr name) = .ok (attr, op) := by
  by_cases hname : name = []
  · subst hname
    have hop : op = "eq" := by
      simp only [GRAPHQL_EXPRESSION_NAMES, List.mem_cons, List.not_mem_nil,
        or_false, Prod.mk.injEq] at hmem
      rcases hmem with ⟨h1, h2⟩ | ⟨h1, h2⟩ | ⟨h1, h2⟩ | ⟨h1, h2⟩ | ⟨h1, h2⟩ |
        ⟨h1, h2⟩ | ⟨h1, h2⟩ | ⟨h1, h2⟩ | ⟨h1, h2⟩ | ⟨h1, h2⟩ | ⟨h1, h2⟩ |
        ⟨h1, h2⟩ | ⟨h1, h2⟩ | ⟨h1, h2⟩ | ⟨h1, h2⟩ | ⟨h1, h2⟩ | ⟨h1, h2⟩ |
        ⟨h1, h2⟩ <;>
        first
          | exact h1
          | exact absurd h2 (by decide)
    subst hop
    have hkey : graphqlFilterKey attr [] = attr := rfl
    rw [hkey] at huniq ⊢
    unfold splitGraphqlField splitGraphqlFieldWith
    rw [expressionToName_default]
    have hfirst : ∀ p ∈
        [(("contained_by" : String), "contained_by".data),
         ("contains", "contains".data), ("is_null", "is_null".data),
         ("overlap", "overlap".data), ("not_in", "not_in".data),
         ("ilike", "ilike".data), ("range", "range".data),
         ("like", "like".data), ("lte", "lte".data), ("gte", "gte".data),
         ("and", "and".data), ("not", "not".data), ("ne", "ne".data),
         ("in", "in".data), ("lt", "lt".data), ("gt", "gt".data),
         ("or", "or".data)], p.2 ≠ [] ∧ ¬((DELIMITER :: p.2) <:+ attr) := by
      have hnonempty : ∀ p ∈
          [(("contained_by" : String), "contained_by".data),
           ("contains", "contains".data), ("is_null", "is_null".data),
           ("overlap", "overlap".data), ("not_in", "not_in".data),
           ("ilike", "ilike".data), ("range", "range".data),
           ("like", "like".data), ("lte", "lte".data), ("gte", "gte".data),
           ("and", "and".data), ("not", "not".data), ("ne", "ne".data),
           ("in", "in".data), ("lt", "lt".data), ("gt", "gt".data),
           ("or", "or".data)], p.2 ≠ [] ∧ p ∈ GRAPHQL_EXPRESSION_NAMES := by
        decide
      intro p hp
      refine ⟨(hnonempty p hp).1, fun hs => ?_⟩
      have hcontra := huniq p (hnonempty p hp).2 (hnonempty p hp).1 hs
      exact (hnonempty p hp).1 (by rw [hcontra])
    rw [show
      [(("contained_by" : String), "contained_by".data),
       ("contains", "contains".data), ("is_null", "is_null".data),
       ("overlap", "overlap".data), ("not_in", "not_in".data),
       ("ilike", "ilike".data), ("range", "range".data),
       ("like", "like".data), ("lte", "lte".data), ("gte", "gte".data),
       ("and", "and".data), ("not", "not".data), ("ne", "ne".data),
       ("in", "in".data), ("lt", "lt".data), ("gt", "gt".data),
       ("or", "or".data), ("eq", "".data)] =
      [(("contained_by" : String), "contained_by".data),
       ("contains", "contains".data), ("is_null", "is_null".data),
       ("overlap", "overlap".data), ("not_in", "not_in".data),
       ("ilike", "ilike".data), ("range", "range".data),
       ("like", "like".data), ("lte", "lte".data), ("gte", "gte".data),
       ("and", "and".data), ("not", "not".data), ("ne", "ne".data),
       ("in", "in".data), ("lt", "lt".data), ("gt", "gt".data),
       ("or", "or".data)] ++ [("eq", "".data)] from rfl]
    rw [splitGo_skip_nonmatch attr _ _ none hfirst]
    rfl
  · have hkey : graphqlFilterKey attr name = attr ++ DELIMITER :: name :=
      if_neg hname
    have hsuf : (DELIMITER :: name) <:+ graphqlFilterKey attr name := by
      rw [hkey]; exact List.suffix_append attr _
    unfold splitGraphqlField splitGraphqlFieldWith
    rw [splitGo_first_match (graphqlFilterKey attr name) op name _ none
      (registry_mem_split_order _ hmem) hname hsuf
      (fun p hp => huniq p (split_order_mem_registry p hp))]
    rw [hkey]
    have hlen : (attr ++ DELIMITER :: name).length - (name.length + 1) =
        attr.length := by
      rw [List.length_append, List.length_cons]; omega
    rw [hlen, List.take_left]

/-- C1 counterexample: the attribute `log_in` with the default operator `eq`
generates the bare external key `log_in`, but the longest-suffix-first split
maps that key back to attribute `log` with operator `in`, not to
`(log_in, eq)`. -/
theorem c1_counterexample :
    graphqlFilterKey "log_in".data "".data = "log_in".data ∧
    ("eq", "".data) ∈ GRAPHQL_EXPRESSION_NAMES ∧
    splitGraphqlField "log_in".data = .ok ("log".data, "in") ∧
    (("log".data, ("in" : String)) : Str × String) ≠ ("log_in".data, "eq") :=
  ⟨by decide, by decide, by rfl, by decide⟩

/-- C1 (amended): the (attribute, operator) → external-key map of
`_generate_filter_fields` round-trips through `_split_graphql_field`
provided the operator's render name is the only registered render name whose
`'_' + name` form is a suffix of the generated key (for the default `eq`
operator: provided no registered render name matches at all).  Without this
proviso the longest-suffix-first split returns a different pair, as the
counterexample shows. -/
theorem c1_roundtrip_amended (attr : Str) (op : String) (name : Str)
    (hmem : (op, name) ∈ GRAPHQL_EXPRESSION_NAMES)
    (huniq : ∀ p ∈ GRAPHQL_EXPRESSION_NAMES, p.2 ≠ [] →
      (DELIMITER :: p.2) <:+ graphqlFilterKey attr name → p = (op, name)) :
    splitGraphqlField (graphqlFilterKey attr name) = .ok (attr, op) :=
  splitGraphqlField_roundtrip attr op name hmem huniq

/-- C1 witness: for attribute `username` with operator `ilike` the suffix
proviso holds and the round trip succeeds. -/
theorem c1_roundtrip_witness :
    splitGraphqlField (graphqlFilterKey "username".data "ilike".data) =
      .ok ("username".data, "ilike") :=
  c1_roundtrip_amended "username".data "ilike" "ilike".data (by decide)
    (by decide)

theorem except_bind_ok {ε α β : Type} (a : α) (f : α → Except ε β) :
    (Except.ok a : Except ε α) >>= f = f a := rfl

theorem except_bind_error {ε α β : Type} (e : ε) (f : α → Except ε β) :
    (Except.error e : Except ε α) >>= f = Except.error e := rfl

theorem translateMany_cons (env : Env) (reg : List (String × Str))
    (cf : List Str) (model : String) (pa : Option (Str × Bool)) (k : Str)
    (v : FVal) (rest : FTree) :
    translateMany env reg cf model pa (.fcons k v rest) =
      (translateEntry env reg cf model pa k v) >>= (fun rv =>
        (translateMany env reg cf model pa rest).map
          (fun others => (k, rv) :: others)) := by
  cases h1 : translateEntry env reg cf model pa k v <;>
    cases h2 : translateMany env reg cf model pa rest <;>
    simp [translateMany, h1, h2, except_bind_ok, except_bind_error, Except.map]

theorem translateMany_appendT (env : Env) (reg : List (String × Str))
    (cf : List Str) (model : String) (pa : Option (Str × Bool)) :
    ∀ (a b : FTree),
      translateMany env reg cf model pa (FTree.appendT a b) =
        (translateMany env reg cf model pa a) >>= (fun x =>
          (translateMany env reg cf model pa b).map (fun y => x ++ y))
  | .fnil, b => by
    cases h : translateMany env reg cf model pa b <;>
      simp [FTree.appendT, translateMany, h, except_bind_ok,
        except_bind_error, Except.map]
  | .fcons k v r, b => by
    have ih := translateMany_appendT env reg cf model pa r b
    rw [show FTree.appendT (.fcons k v r) b = .fcons k v (FTree.appendT r b)
      from rfl]
    rw [translateMany_cons, translateMany_cons, ih]
    cases h1 : translateEntry env reg cf model pa k v <;>
      cases h2 : translateMany env reg cf model pa r <;>
      cases h3 : translateMany env reg cf model pa b <;>
      simp [h1, h2, h3, except_bind_ok, except_bind_error, Except.map]

theorem translateForest_append (env : Env) (reg : List (String × Str))
    (cf : List Str) (model : String) (pa : Option (Str × Bool)) :
    ∀ (a b : FForest),
      translateForest env reg cf model pa (a.append b) =
        (translateForest env reg cf model pa a) >>= (fun x =>
          (translateForest env reg cf model pa b).map (fun y => x ++ y))
  | .qnil, b => by
    cases h : translateForest env reg cf model pa b <;>
      simp [FForest.append, translateForest, h, except_bind_ok,
        except_bind_error, Except.map]
  | .qcons t r, b => by
    have ih := translateForest_append env reg cf model pa r b
    rw [show FForest.append (.qcons t r) b = .qcons t (FForest.append r b)
      from rfl]
    simp only [translateForest, ih]
    cases h1 : translateMany env reg cf model pa t <;>
      cases h2 : translateForest env reg cf model pa r <;>
      cases h3 : translateForest env reg cf model pa b <;>
      simp [h1, h2, h3, except_bind_ok, except_bind_error, Except.map]

theorem translateForest_qcons_fnil (env : Env) (reg : List (String × Str))
    (cf : List Str) (model : String) (pa : Option (Str × Bool))
    (b : FForest) :
    translateForest env reg cf model pa (.qcons .fnil b) =
      (translateForest env reg cf model pa b).map (fun os => none :: os) := by
  cases h : translateForest env reg cf model pa b <;>
    simp [translateForest, translateMany, finishLevel, h, except_bind_ok,
      except_bind_error, Except.map]

theorem translateEntry_custom (env : Env) (reg : List (String × Str))
    (cf : List Str) (model : String) (pa : Option (Str × Bool)) (key : Str)
    (value : FVal) (h : key ∈ cf) :
    translateEntry env reg cf model pa key value =
      .ok (.rpred (.customP key)) := by
  unfold translateEntry
  rw [if_pos h]

theorem translateEntry_and_key (env : Env) (reg : List (String × Str))
    (cf : List Str) (model : String) (pa : Option (Str × Bool)) (ts : FForest)
    (h : "and".data ∉ cf) :
    translateEntry env reg cf model pa "and".data (.flist ts) =
      (translateForest env reg cf model pa ts).map (fun os =>
        .rpred (.andP (SPredList.ofList (os.filterMap id)))) := by
  unfold translateEntry
  rw [if_neg h, if_pos (Or.inl rfl)]
  cases hf : translateForest env reg cf model pa ts <;>
    simp [hf, except_bind_ok, except_bind_error, Except.map, JoinKind.apply]

theorem translateEntry_or_key (env : Env) (reg : List (String × Str))
    (cf : List Str) (model : String) (pa : Option (Str × Bool)) (ts : FForest)
    (h : "or".data ∉ cf) :
    translateEntry env reg cf model pa "or".data (.flist ts) =
      (translateForest env reg cf model pa ts).map (fun os =>
        .rpred (.orP (SPredList.ofList (os.filterMap id)))) := by
  unfold translateEntry
  rw [if_neg h, if_pos (Or.inr rfl)]
  cases hf : translateForest env reg cf model pa ts <;>
    simp [hf, except_bind_ok, except_bind_error, Except.map, JoinKind.apply]

theorem translateEntry_not_key (env : Env) (reg : List (String × Str))
    (cf : List Str) (model : String) (pa : Option (Str × Bool)) (t : FTree)
    (h : "not".data ∉ cf) :
    translateEntry env reg cf model pa "not".data (.fdict t) =
      (translateMany env reg cf model pa t).map (finishRVal .jnotAnd pa) := by
  unfold translateEntry
  rw [if_neg h, if_neg (by decide :
    ¬("not".data = "and".data ∨ "not".data = "or".data)), if_pos rfl]
  cases hm : translateMany env reg cf model pa t <;>
    simp [hm, except_bind_ok, except_bind_error, Except.map]

theorem translateEntry_leaf_branch (env : Env) (reg : List (String × Str))
    (cf : List Str) (model : String) (pa : Option (Str × Bool)) (key : Str)
    (value : FVal) (f : Str) (e : String)
    (hcf : key ∉ cf) (hao : ¬(key = "and".data ∨ key = "or".data))
    (hn : key ≠ "not".data)
    (hsplit : splitGraphqlFieldWith reg key = .ok (f, e))
    (hff : e ∈ FILTER_FUNCTION_KEYS)
    (hv : ∀ t, value ≠ .fdict t) :
    translateEntry env reg cf model pa key value =
      translateLeaf env model f e value := by
  unfold translateEntry
  rw [if_neg hcf, if_neg hao, if_neg hn, hsplit, except_bind_ok, if_pos hff]
  cases value with
  | scalar v => rfl
  | slist vs => rfl
  | fdict t => exact absurd rfl (hv t)
  | flist ts => rfl

theorem translateEntry_rel_branch (env : Env) (reg : List (String × Str))
    (cf : List Str) (model : String) (pa : Option (Str × Bool)) (key : Str)
    (t : FTree) (f : Str) (e : String) (uselist : Bool) (target : String)
    (hcf : key ∉ cf) (hao : ¬(key = "and".data ∨ key = "or".data))
    (hn : key ≠ "not".data)
    (hsplit : splitGraphqlFieldWith reg key = .ok (f, e))
    (hff : e ∈ FILTER_FUNCTION_KEYS) (hr : e ≠ "range")
    (hrel : findRel (attrsOf env model) key = some (uselist, target)) :
    translateEntry env reg cf model pa key (.fdict t) =
      (translateMany env reg cf target (some (key, uselist)) t).map
        (finishRVal .jand (some (key, uselist))) := by
  unfold translateEntry
  rw [if_neg hcf, if_neg hao, if_neg hn, hsplit, except_bind_ok, if_pos hff]
  show (if e = "range" then translateLeaf env model f e (.fdict t)
    else
      match findRel (attrsOf env model) key with
      | some (uselist, target) =>
        (translateMany env reg cf target (some (key, uselist)) t) >>=
          (fun es => .ok (finishRVal .jand (some (key, uselist)) es))
      | none => .ok .rdict) = _
  rw [if_neg hr, hrel]
  cases hm : translateMany env reg cf target (some (key, uselist)) t <;>
    simp [hm, except_bind_ok, except_bind_error, Except.map]

theorem translateEntry_rel_none (env : Env) (reg : List (String × Str))
    (cf : List Str) (model : String) (pa : Option (Str × Bool)) (key : Str)
    (t : FTree) (f : Str) (e : String)
    (hcf : key ∉ cf) (hao : ¬(key = "and".data ∨ key = "or".data))
    (hn : key ≠ "not".data)
    (hsplit : splitGraphqlFieldWith reg key = .ok (f, e))
    (hff : e ∈ FILTER_FUNCTION_KEYS) (hr : e ≠ "range")
    (hrel : findRel (attrsOf env model) key = none) :
    translateEntry env reg cf model pa key (.fdict t) = .ok .rdict := by
  unfold translateEntry
  rw [if_neg hcf, if_neg hao, if_neg hn, hsplit, except_bind_ok, if_pos hff]
  show (if e = "range" then translateLeaf env model f e (.fdict t)
    else
      match findRel (attrsOf env model) key with
      | some (uselist, target) =>
        (translateMany env reg cf target (some (key, uselist)) t) >>=
          (fun es => .ok (finishRVal .jand (some (key, uselist)) es))
      | none => .ok .rdict) = _
  rw [if_neg hr, hrel]

theorem translateEntry_split_error (env : Env) (reg : List (String × Str))
    (cf : List Str) (model : String) (pa : Option (Str × Bool)) (key : Str)
    (value : FVal) (msg : String)
    (hcf : key ∉ cf) (hao : ¬(key = "and".data ∨ key = "or".data))
    (hn : key ≠ "not".data)
    (hsplit : splitGraphqlFieldWith reg key = .error msg) :
    translateEntry env reg cf model pa key value = .error msg := by
  unfold translateEntry
  rw [if_neg hcf, if_neg hao, if_neg hn, hsplit, except_bind_error]

theorem filterSetFilter_run (env : Env) (reg : List (String × Str))
    (cf : List Str) (model : String) (ctx : Ctx) (q : SQuery) (t : FTree) :
    filterSetFilter env reg cf model ctx q t =
      ((resetAliases ctx).2,
        (translateMany env reg cf model none t) >>= (fun es =>
          match finishLevel .jand none es with
          | some p => .ok (q.filterBy p, (resetAliases ctx).1)
          | none => .ok (q, (resetAliases ctx).1))) := rfl

theorem mem_insertByNameLen (x y : String × Str) (l : List (String × Str)) :
    y ∈ insertByNameLen x l ↔ y = x ∨ y ∈ l := by
  induction l with
  | nil => simp [insertByNameLen]
  | cons z zs ih =>
    rw [insertByNameLen]
    by_cases h : z.2.length ≤ x.2.length
    · rw [if_pos h]
      simp [List.mem_cons]
    · rw [if_neg h]
      simp only [List.mem_cons, ih]
      tauto

theorem mem_sortByNameLenDesc (x : String × Str) (l : List (String × Str)) :
    x ∈ sortByNameLenDesc l ↔ x ∈ l := by
  induction l with
  | nil => simp [sortByNameLenDesc]
  | cons z zs ih => simp [sortByNameLenDesc, mem_insertByNameLen, ih]

theorem splitWith_no_match (reg : List (String × Str)) (key : Str)
    (h1 : ∀ p ∈ reg, p.2 ≠ [])
    (h2 : ∀ p ∈ reg, ¬((DELIMITER :: p.2) <:+ key)) :
    splitGraphqlFieldWith reg key =
      .error ("Operator not found \"" ++ String.mk key ++ "\"") := by
  unfold splitGraphqlFieldWith
  have hskip := splitGo_skip_nonmatch key (expressionToName reg) [] none
    (fun p hp => ⟨h1 p ((mem_sortByNameLenDesc p reg).mp hp),
                  h2 p ((mem_sortByNameLenDesc p reg).mp hp)⟩)
  rw [List.append_nil] at hskip
  rw [hskip]
  rfl

theorem nonDictPreds_drop_rdict (es1 es2 : List (Str × RVal)) (k : Str) :
    nonDictPreds (es1 ++ (k, RVal.rdict) :: es2) =
      nonDictPreds (es1 ++ es2) := by
  simp [nonDictPreds, List.filterMap_append, List.filterMap_cons]

theorem evalConj_ofList (I : Interp) (ps : List SPred) :
    SPredList.evalConj I (SPredList.ofList ps) ↔ ∀ p ∈ ps, SPred.eval I p := by
  induction ps with
  | nil => simp [SPredList.ofList, SPredList.evalConj]
  | cons p ps ih => simp [SPredList.ofList, SPredList.evalConj, ih]

/-- C2: translating a filter tree of the form `{not: {and: [f1, ..., fn]}}`
combines the sub-predicates of `not` with conjunction before negating
(`join_by_map['not'] = lambda *x: not_(and_(*x))`), so the resulting root
predicate is `NOT (AND ...)` over the sub-translations, and its evaluation
is the negation of the conjunction of the sub-predicates — not a
conjunction of individually negated ones. -/
theorem c2_not_negates_conjunction (env : Env) (cf : List Str)
    (model : String) (ctx : Ctx) (q : SQuery) (ts : FForest)
    (os : List (Option SPred))
    (hnotcf : "not".data ∉ cf) (handcf : "and".data ∉ cf)
    (hforest : translateForest env GRAPHQL_EXPRESSION_NAMES cf model none ts =
      .ok os) :
    (filterSetFilter env GRAPHQL_EXPRESSION_NAMES cf model ctx q
        (.fcons "not".data (.fdict (.fcons "and".data (.flist ts) .fnil))
          .fnil)).2 =
      .ok (q.filterBy (.andP (SPredList.ofList [.notP (.andP
        (SPredList.ofList [.andP (SPredList.ofList (os.filterMap id))]))])),
        (resetAliases ctx).1) ∧
    (∀ I : Interp,
      SPred.eval I (.andP (SPredList.ofList [.notP (.andP (SPredList.ofList
        [.andP (SPredList.ofList (os.filterMap id))]))])) ↔
      ¬ ∀ p ∈ os.filterMap id, SPred.eval I p) := by
  constructor
  · rw [filterSetFilter_run]
    show (translateMany env GRAPHQL_EXPRESSION_NAMES cf model none
      (.fcons "not".data (.fdict (.fcons "and".data (.flist ts) .fnil))
        .fnil)) >>= _ = _
    rw [translateMany_cons,
      translateEntry_not_key env GRAPHQL_EXPRESSION_NAMES cf model none _
        hnotcf,
      translateMany_cons,
      translateEntry_and_key env GRAPHQL_EXPRESSION_NAMES cf model none ts
        handcf,
      hforest]
    simp [Except.map, except_bind_ok, translateMany, finishRVal, finishLevel,
      nonDictPreds, wrapParentAttr, JoinKind.apply, SPredList.ofList]
  · intro I
    simp [SPredList.ofList, SPred.eval, SPredList.evalConj, evalConj_ofList]

/-- C2 witness: `{not: {and: [{a: 1}, {b: 2}]}}` over a model with columns
`a`, `b` yields `AND [NOT (AND [AND [AND [a=1], AND [b=2]]])]`. -/
theorem c2_witness :
    (filterSetFilter
        [("User", [SAttr.column "a".data none, SAttr.column "b".data none])]
        GRAPHQL_EXPRESSION_NAMES [] "User" (.cdict []) ⟨[]⟩
        (.fcons "not".data
          (.fdict (.fcons "and".data
            (.flist (.qcons (.fcons "a".data (.scalar (.vint 1)) .fnil)
              (.qcons (.fcons "b".data (.scalar (.vint 2)) .fnil) .qnil)))
            .fnil))
          .fnil)).2 =
      .ok (⟨[.andP (SPredList.ofList [.notP (.andP (SPredList.ofList
        [.andP (SPredList.ofList
          [.andP (SPredList.ofList [.leaf (.eqL "a".data (.vint 1))]),
           .andP (SPredList.ofList
             [.leaf (.eqL "b".data (.vint 2))])])]))])]⟩, .cdict []) :=
  (c2_not_negates_conjunction
    [("User", [SAttr.column "a".data none, SAttr.column "b".data none])]
    [] "User" (.cdict []) ⟨[]⟩
    (.qcons (.fcons "a".data (.scalar (.vint 1)) .fnil)
      (.qcons (.fcons "b".data (.scalar (.vint 2)) .fnil) .qnil))
    [some (.andP (SPredList.ofList [.leaf (.eqL "a".data (.vint 1))])),
     some (.andP (SPredList.ofList [.leaf (.eqL "b".data (.vint 2))]))]
    (by decide) (by decide) rfl).1

/-- C3: a relationship-typed filter key recurses into the related model and
wraps the composed sub-predicate as an existence test: `any` semantics
(`parent_attr.any(...)`) when the relationship is collection-valued
(`uselist`), `has` semantics (`parent_attr.has(...)`) when single-valued;
an empty sub-result leaves the entry as an inert dict, so no existence
test is produced. -/
theorem c3_relationship_any_has (env : Env) (cf : List Str) (model : String)
    (pa : Option (Str × Bool)) (key f : Str) (e : String) (sub : FTree)
    (uselist : Bool) (target : String) (es : List (Str × RVal))
    (hcf : key ∉ cf) (hao : ¬(key = "and".data ∨ key = "or".data))
    (hn : key ≠ "not".data)
    (hsplit : splitGraphqlField key = .ok (f, e))
    (hff : e ∈ FILTER_FUNCTION_KEYS) (hr : e ≠ "range")
    (hrel : findRel (attrsOf env model) key = some (uselist, target))
    (hsub : translateMany env GRAPHQL_EXPRESSION_NAMES cf target
      (some (key, uselist)) sub = .ok es) :
    translateEntry env GRAPHQL_EXPRESSION_NAMES cf model pa key
        (.fdict sub) =
      .ok (if es.isEmpty then RVal.rdict
        else
          .rpred (if uselist then
            .anyP key (.andP (SPredList.ofList (nonDictPreds es)))
          else
            .hasP key (.andP (SPredList.ofList (nonDictPreds es))))) := by
  rw [translateEntry_rel_branch env GRAPHQL_EXPRESSION_NAMES cf model pa key
    sub f e uselist target hcf hao hn hsplit hff hr hrel, hsub]
  cases es with
  | nil => simp [Except.map, finishRVal, finishLevel]
  | cons x rest =>
    simp [Except.map, finishRVal, finishLevel, wrapParentAttr,
      JoinKind.apply]

/-- C3 witness: filtering the collection relationship `tasks` with
`{tasks: {x: 1}}` produces `tasks.any(AND [x=1])`. -/
theorem c3_relationship_witness :
    translateEntry
        [("User", [SAttr.relationship "tasks".data true "Task"]),
         ("Task", [SAttr.column "x".data none])]
        GRAPHQL_EXPRESSION_NAMES [] "User" none "tasks".data
        (.fdict (.fcons "x".data (.scalar (.vint 1)) .fnil)) =
      .ok (.rpred (.anyP "tasks".data (.andP (SPredList.ofList
        [.leaf (.eqL "x".data (.vint 1))])))) :=
  c3_relationship_any_has
    [("User", [SAttr.relationship "tasks".data true "Task"]),
     ("Task", [SAttr.column "x".data none])]
    [] "User" none "tasks".data "tasks".data "eq"
    (.fcons "x".data (.scalar (.vint 1)) .fnil) true "Task"
    [("x".data, .rpred (.leaf (.eqL "x".data (.vint 1))))]
    (by decide) (by decide) (by decide) rfl (by decide) (by decide) rfl rfl

/-- C4: an empty filter tree translates to the unchanged query (no predicate
added); an empty sub-tree inside an `and`/`or` list is skipped; an empty
sub-tree under `not` or under a relationship key leaves an inert dict
entry; and dict entries contribute nothing to the predicates joined by an
enclosing combinator. -/
theorem c4_empty_tree_neutral :
    (∀ (env : Env) (reg : List (String × Str)) (cf : List Str)
        (model : String) (ctx : Ctx) (q : SQuery),
      (filterSetFilter env reg cf model ctx q .fnil).2 =
        .ok (q, (resetAliases ctx).1)) ∧
    (∀ (env : Env) (reg : List (String × Str)) (cf : List Str)
        (model : String) (pa : Option (Str × Bool)) (ts1 ts2 : FForest),
      translateMany env reg cf model pa
          (.fcons "and".data (.flist (ts1.append (.qcons .fnil ts2)))
            .fnil) =
        translateMany env reg cf model pa
          (.fcons "and".data (.flist (ts1.append ts2)) .fnil)) ∧
    (∀ (env : Env) (reg : List (String × Str)) (cf : List Str)
        (model : String) (pa : Option (Str × Bool)) (ts1 ts2 : FForest),
      translateMany env reg cf model pa
          (.fcons "or".data (.flist (ts1.append (.qcons .fnil ts2)))
            .fnil) =
        translateMany env reg cf model pa
          (.fcons "or".data (.flist (ts1.append ts2)) .fnil)) ∧
    (∀ (env : Env) (reg : List (String × Str)) (cf : List Str)
        (model : String) (pa : Option (Str × Bool)), "not".data ∉ cf →
      translateEntry env reg cf model pa "not".data (.fdict .fnil) =
        .ok .rdict) ∧
    (∀ (env : Env) (reg : List (String × Str)) (cf : List Str)
        (model : String) (pa : Option (Str × Bool)) (key f : Str)
        (e : String), key ∉ cf →
      ¬(key = "and".data ∨ key = "or".data) → key ≠ "not".data →
      splitGraphqlFieldWith reg key = .ok (f, e) →
      e ∈ FILTER_FUNCTION_KEYS → e ≠ "range" →
      translateEntry env reg cf model pa key (.fdict .fnil) = .ok .rdict) ∧
    (∀ (es1 es2 : List (Str × RVal)) (k : Str),
      nonDictPreds (es1 ++ (k, RVal.rdict) :: es2) =
        nonDictPreds (es1 ++ es2)) := by
  refine ⟨fun env reg cf model ctx q => rfl, ?_, ?_, ?_, ?_, ?_⟩
  · intro env reg cf model pa ts1 ts2
    rw [translateMany_cons, translateMany_cons]
    by_cases hand : "and".data ∈ cf
    · rw [translateEntry_custom env reg cf model pa _ _ hand,
        translateEntry_custom env reg cf model pa _ _ hand]
    · rw [translateEntry_and_key env reg cf model pa _ hand,
        translateEntry_and_key env reg cf model pa _ hand,
        translateForest_append, translateForest_append,
        translateForest_qcons_fnil]
      cases h1 : translateForest env reg cf model pa ts1 <;>
        cases h2 : translateForest env reg cf model pa ts2 <;>
        simp [h1, h2, except_bind_ok, except_bind_error, Except.map,
          List.filterMap_append, List.filterMap_cons]
  · intro env reg cf model pa ts1 ts2
    rw [translateMany_cons, translateMany_cons]
    by_cases hor : "or".data ∈ cf
    · rw [translateEntry_custom env reg cf model pa _ _ hor,
        translateEntry_custom env reg cf model pa _ _ hor]
    · rw [translateEntry_or_key env reg cf model pa _ hor,
        translateEntry_or_key env reg cf model pa _ hor,
        translateForest_append, translateForest_append,
        translateForest_qcons_fnil]
      cases h1 : translateForest env reg cf model pa ts1 <;>
        cases h2 : translateForest env reg cf model pa ts2 <;>
        simp [h1, h2, except_bind_ok, except_bind_error, Except.map,
          List.filterMap_append, List.filterMap_cons]
  · intro env reg cf model pa h
    rw [translateEntry_not_key env reg cf model pa .fnil h]
    simp [translateMany, Except.map, finishRVal, finishLevel]
  · intro env reg cf model pa key f e hcf hao hn hsplit hff hr
    cases hrel : findRel (attrsOf env model) key with
    | none =>
      exact translateEntry_rel_none env reg cf model pa key .fnil f e hcf hao
        hn hsplit hff hr hrel
    | some ut =>
      obtain ⟨u, tgt⟩ := ut
      rw [translateEntry_rel_branch env reg cf model pa key .fnil f e u tgt
        hcf hao hn hsplit hff hr hrel]
      simp [translateMany, Except.map, finishRVal, finishLevel]
  · exact fun es1 es2 k => nonDictPreds_drop_rdict es1 es2 k

/-- C4 witness: concrete instances of the empty-tree identity, the inert
`not`/relationship entries on empty sub-trees, and the dict-entry drop. -/
theorem c4_witness :
    (filterSetFilter [] GRAPHQL_EXPRESSION_NAMES [] "User" (.cdict []) ⟨[]⟩
        .fnil).2 = .ok (⟨[]⟩, .cdict []) ∧
    translateEntry [] GRAPHQL_EXPRESSION_NAMES [] "User" none "not".data
        (.fdict .fnil) = .ok .rdict ∧
    translateEntry [] GRAPHQL_EXPRESSION_NAMES [] "User" none "balance".data
        (.fdict .fnil) = .ok .rdict ∧
    nonDictPreds ([] ++ ("a".data, RVal.rdict) :: []) = nonDictPreds [] :=
  ⟨c4_empty_tree_neutral.1 [] GRAPHQL_EXPRESSION_NAMES [] "User" (.cdict [])
      ⟨[]⟩,
   c4_empty_tree_neutral.2.2.2.1 [] GRAPHQL_EXPRESSION_NAMES [] "User" none
      (by decide),
   c4_empty_tree_neutral.2.2.2.2.1 [] GRAPHQL_EXPRESSION_NAMES [] "User"
      none "balance".data "balance".data "eq" (by decide) (by decide)
      (by decide) rfl (by decide) (by decide),
   c4_empty_tree_neutral.2.2.2.2.2 [] [] "a".data⟩

theorem find?_append_none {α : Type} (p : α → Bool) (l1 l2 : List α)
    (h : l1.find? p = none) : (l1 ++ l2).find? p = l2.find? p := by
  induction l1 with
  | nil => rfl
  | cons x xs ih =>
    rw [List.cons_append]
    by_cases hx : p x = true
    · rw [List.find?_cons_of_pos _ hx] at h
      exact absurd h (by simp)
    · rw [List.find?_cons_of_neg _ hx] at h ⊢
      exact ih h

/-- C5 counterexample: on the query path of `FilterSet.aliased`, two calls
with the same (entity, name) pair against a query with no join entities
produce two distinct aliases (ids 0 and 1) and store nothing, refuting
"on cache miss a new alias is created and stored in the cache" and the
is-identity of repeated calls. -/
theorem c5_counterexample :
    (aliasedFromQuery [] ⟨0⟩ "Membership" (some "memb")).1 = 0 ∧
    (aliasedFromQuery []
        ((aliasedFromQuery [] ⟨0⟩ "Membership" (some "memb")).2)
        "Membership" (some "memb")).1 = 1 ∧
    (0 : Nat) ≠ 1 := by decide

/-- C5 (amended): on the deprecated resolve-info path of `FilterSet.aliased`
the claim holds: a miss creates a fresh alias and stores it in the context
cache, a hit returns the stored handle unconditionally with nothing
changed, and a different alias name for the same entity yields a distinct
alias.  On the query path the cache is read from the query's join entities
and a miss does not store, so repeated calls only return the identical
alias once it has been joined into the query. -/
theorem c5_amended_alias_cache (cache : AliasCache) (st : AliasSt)
    (entity : String) (name : Option String)
    (hmiss : cache.find? (fun e => e.1 = (entity, name)) = none) :
    aliasedFromInfo (.cdict cache) st entity name =
      .ok (st.fresh, .cdict (cache ++ [((entity, name), st.fresh)]),
        ⟨st.fresh + 1⟩) ∧
    aliasedFromInfo (.cdict (cache ++ [((entity, name), st.fresh)]))
        ⟨st.fresh + 1⟩ entity name =
      .ok (st.fresh, .cdict (cache ++ [((entity, name), st.fresh)]),
        ⟨st.fresh + 1⟩) ∧
    (∀ name2 : Option String, name2 ≠ name →
      cache.find? (fun e => e.1 = (entity, name2)) = none →
      aliasedFromInfo (.cdict (cache ++ [((entity, name), st.fresh)]))
          ⟨st.fresh + 1⟩ entity name2 =
        .ok (st.fresh + 1,
          .cdict ((cache ++ [((entity, name), st.fresh)]) ++
            [((entity, name2), st.fresh + 1)]), ⟨st.fresh + 2⟩) ∧
      st.fresh + 1 ≠ st.fresh) := by
  refine ⟨?_, ?_, ?_⟩
  · unfold aliasedFromInfo
    simp [aliasesFromInfo, except_bind_ok, hmiss, setAliasCache]
  · unfold aliasedFromInfo
    rw [show aliasesFromInfo
        (.cdict (cache ++ [((entity, name), st.fresh)])) =
      .ok (cache ++ [((entity, name), st.fresh)]) from rfl, except_bind_ok]
    rw [find?_append_none _ cache _ hmiss]
    simp [List.find?]
  · intro name2 hne hmiss2
    refine ⟨?_, by omega⟩
    unfold aliasedFromInfo
    rw [show aliasesFromInfo
        (.cdict (cache ++ [((entity, name), st.fresh)])) =
      .ok (cache ++ [((entity, name), st.fresh)]) from rfl, except_bind_ok]
    have hpx : ¬(((entity, name) : String × Option String) =
        (entity, name2)) := by
      intro h
      injection h with h1 h2
      exact hne h2.symm
    have hone : (cache ++ [((entity, name), st.fresh)]).find?
        (fun e => e.1 = (entity, name2)) = none := by
      rw [find?_append_none _ cache _ hmiss2]
      rw [List.find?_cons_of_neg]
      · rfl
      · simpa using hpx
    rw [hone]
    simp [setAliasCache]

/-- C5 witness: concrete miss-store-hit round trip on the info path. -/
theorem c5_amended_witness :
    aliasedFromInfo (.cdict []) ⟨0⟩ "User" (some "u1") =
      .ok (0, .cdict [(("User", some "u1"), 0)], ⟨1⟩) ∧
    aliasedFromInfo (.cdict [(("User", some "u1"), 0)]) ⟨1⟩ "User"
        (some "u1") =
      .ok (0, .cdict [(("User", some "u1"), 0)], ⟨1⟩) :=
  ⟨(c5_amended_alias_cache [] ⟨0⟩ "User" (some "u1") rfl).1,
   (c5_amended_alias_cache [] ⟨0⟩ "User" (some "u1") rfl).2.1⟩

/-- C6: a scalar-valued leaf key whose split-off attribute resolves to no
model attribute aborts the whole translation with `Field not found: <attr>`
(any prefix of already-translated entries notwithstanding, and the query is
never touched since `query.filter` only runs on success); a key matched by
no registered render name is an `Operator not found: "<key>"` error from
the split (only possible when the registry has no empty render name, since
an empty name matches every key as the fallback), which likewise aborts
the whole translation. -/
theorem c6_unknown_field_or_operator :
    (∀ (env : Env) (cf : List Str) (model : String) (ctx : Ctx) (q : SQuery)
        (pre : FTree) (key : Str) (v : Val) (post : FTree) (f : Str)
        (e : String) (pres : List (Str × RVal)),
      translateMany env GRAPHQL_EXPRESSION_NAMES cf model none pre =
        .ok pres →
      key ∉ cf → ¬(key = "and".data ∨ key = "or".data) →
      key ≠ "not".data →
      splitGraphqlField key = .ok (f, e) → e ∈ FILTER_FUNCTION_KEYS →
      findAttr (attrsOf env model) f = none →
      (filterSetFilter env GRAPHQL_EXPRESSION_NAMES cf model ctx q
          (FTree.appendT pre (.fcons key (.scalar v) post))).2 =
        .error ("Field not found: " ++ String.mk f)) ∧
    (∀ (reg : List (String × Str)) (key : Str),
      (∀ p ∈ reg, p.2 ≠ []) →
      (∀ p ∈ reg, ¬((DELIMITER :: p.2) <:+ key)) →
      splitGraphqlFieldWith reg key =
        .error ("Operator not found \"" ++ String.mk key ++ "\"")) ∧
    (∀ (env : Env) (reg : List (String × Str)) (cf : List Str)
        (model : String) (ctx : Ctx) (q : SQuery) (key : Str) (v : FVal)
        (rest : FTree),
      key ∉ cf → ¬(key = "and".data ∨ key = "or".data) →
      key ≠ "not".data →
      (∀ p ∈ reg, p.2 ≠ []) →
      (∀ p ∈ reg, ¬((DELIMITER :: p.2) <:+ key)) →
      (filterSetFilter env reg cf model ctx q (.fcons key v rest)).2 =
        .error ("Operator not found \"" ++ String.mk key ++ "\"")) := by
  refine ⟨?_, ?_, ?_⟩
  · intro env cf model ctx q pre key v post f e pres hpre hcf hao hn hsplit
      hff hfa
    rw [filterSetFilter_run]
    show (translateMany env GRAPHQL_EXPRESSION_NAMES cf model none
      (FTree.appendT pre (.fcons key (.scalar v) post))) >>= _ = _
    rw [translateMany_appendT, hpre, except_bind_ok, translateMany_cons,
      translateEntry_leaf_branch env GRAPHQL_EXPRESSION_NAMES cf model none
        key (.scalar v) f e hcf hao hn hsplit hff
        (fun t h => FVal.noConfusion h)]
    rw [show translateLeaf env model f e (.scalar v) =
        .error ("Field not found: " ++ String.mk f) from by
      unfold translateLeaf
      rw [hfa]]
    rfl
  · intro reg key h1 h2
    exact splitWith_no_match reg key h1 h2
  · intro env reg cf model ctx q key v rest hcf hao hn h1 h2
    rw [filterSetFilter_run]
    show (translateMany env reg cf model none (.fcons key v rest)) >>= _ = _
    rw [translateMany_cons,
      translateEntry_split_error env reg cf model none key v _ hcf hao hn
        (splitWith_no_match reg key h1 h2)]
    rfl

/-- C6 witness: `{bogus: 1}` on a model without that column is
`Field not found: bogus`; against a registry with only a non-matching,
non-empty render name, `{field: 1}` is `Operator not found: "field"`. -/
theorem c6_witness :
    (filterSetFilter [("User", [])] GRAPHQL_EXPRESSION_NAMES [] "User"
        (.cdict []) ⟨[]⟩
        (FTree.appendT .fnil
          (.fcons "bogus".data (.scalar (.vint 1)) .fnil))).2 =
      .error ("Field not found: " ++ String.mk "bogus".data) ∧
    splitGraphqlFieldWith [("op1", "xx".data)] "somefield".data =
      .error ("Operator not found \"" ++ String.mk "somefield".data ++
        "\"") ∧
    (filterSetFilter [] [("op1", "xx".data)] [] "User" (.cdict []) ⟨[]⟩
        (.fcons "somefield".data (.scalar (.vint 1)) .fnil)).2 =
      .error ("Operator not found \"" ++ String.mk "somefield".data ++
        "\"") :=
  ⟨c6_unknown_field_or_operator.1 [("User", [])] [] "User" (.cdict []) ⟨[]⟩
      .fnil "bogus".data (.vint 1) .fnil "bogus".data "eq" [] rfl
      (by decide) (by decide) (by decide) rfl (by decide) rfl,
   c6_unknown_field_or_operator.2.1 [("op1", "xx".data)] "somefield".data
      (by decide) (by decide),
   c6_unknown_field_or_operator.2.2 [] [("op1", "xx".data)] [] "User"
      (.cdict []) ⟨[]⟩ "somefield".data (.scalar (.vint 1)) .fnil
      (by decide) (by decide) (by decide) (by decide) (by decide)⟩

theorem sqlaSubclass_self (t : SqlaType) : sqlaSubclass t t = true := by
  simp [sqlaSubclass]

theorem allAutoExpressions_some (tc : SqlaType) (nullable : Bool) :
    allAutoExpressions (some tc) nullable =
      (match ALLOWED_FILTERS.find? (fun p => p.1 = tc) with
        | some p => .ok (p.2 ++ if nullable then ["is_null"] else [])
        | none =>
          match ALLOWED_FILTERS.find? (fun p => sqlaSubclass tc p.1) with
          | some p => .ok (p.2 ++ if nullable then ["is_null"] else [])
          | none =>
            .error
              "Unsupported column type. Hint: use EXTRA_ALLOWED_FILTERS.") :=
  rfl

theorem allowed_filters_no_is_null :
    ∀ p ∈ ALLOWED_FILTERS, "is_null" ∉ p.2 := by decide

/-- C7: under the all-operators sentinel, a hybrid/computed attribute (no
inferable column type) is rejected with an explicit error; a plain column
type with no registered rule (neither exact nor by superclass) fails with
the `Unsupported column type` hint; an exact registry hit returns that
rule's operators; a miss falls back to the first registered superclass in
dict order; and `is_null` is in the produced operator list exactly when the
column is nullable. -/
theorem c7_all_sentinel (nullable : Bool) :
    (allAutoExpressions none nullable =
      .error "Unsupported field type for automatic filter binding") ∧
    (∀ tc : SqlaType,
      ((∀ p ∈ ALLOWED_FILTERS, sqlaSubclass tc p.1 = false) →
        allAutoExpressions (some tc) nullable =
          .error
            "Unsupported column type. Hint: use EXTRA_ALLOWED_FILTERS.") ∧
      (∀ res, allAutoExpressions (some tc) nullable = .ok res →
        ("is_null" ∈ res ↔ nullable = true)) ∧
      (∀ q, ALLOWED_FILTERS.find? (fun p => p.1 = tc) = some q →
        allAutoExpressions (some tc) nullable =
          .ok (q.2 ++ if nullable then ["is_null"] else [])) ∧
      (ALLOWED_FILTERS.find? (fun p => p.1 = tc) = none →
        ∀ q, ALLOWED_FILTERS.find? (fun p => sqlaSubclass tc p.1) =
            some q →
          allAutoExpressions (some tc) nullable =
            .ok (q.2 ++ if nullable then ["is_null"] else []))) := by
  refine ⟨rfl, fun tc => ⟨?_, ?_, ?_, ?_⟩⟩
  · intro hall
    have hx : ALLOWED_FILTERS.find? (fun p => p.1 = tc) = none := by
      rw [List.find?_eq_none]
      intro p hp
      simp only [decide_eq_true_eq]
      intro he
      have hs := hall p hp
      rw [he] at hs
      rw [sqlaSubclass_self] at hs
      exact Bool.noConfusion hs
    have hy : ALLOWED_FILTERS.find? (fun p => sqlaSubclass tc p.1) =
        none := by
      rw [List.find?_eq_none]
      intro p hp
      simp [hall p hp]
    rw [allAutoExpressions_some, hx, hy]
  · intro res hres
    rw [allAutoExpressions_some] at hres
    cases hx : ALLOWED_FILTERS.find? (fun p => p.1 = tc) with
    | some w =>
      rw [hx] at hres
      have hw := List.mem_of_find?_eq_some hx
      have hni := allowed_filters_no_is_null w hw
      injection hres with hres2
      subst hres2
      cases nullable <;> simp [hni]
    | none =>
      rw [hx] at hres
      cases hy : ALLOWED_FILTERS.find? (fun p => sqlaSubclass tc p.1) with
      | some w =>
        rw [hy] at hres
        have hw := List.mem_of_find?_eq_some hy
        have hni := allowed_filters_no_is_null w hw
        injection hres with hres2
        subst hres2
        cases nullable <;> simp [hni]
      | none =>
        rw [hy] at hres
        exact Except.noConfusion hres
  · intro w hw
    rw [allAutoExpressions_some, hw]
  · intro hx w hw
    rw [allAutoExpressions_some, hx, hw]

/-- C7 witness: a hybrid attribute is rejected; `BigInteger` (no exact rule)
falls back to the `Integer` rule plus `is_null` when nullable;
`LargeBinary` matches no rule and fails with the extension hint. -/
theorem c7_witness :
    allAutoExpressions none true =
      .error "Unsupported field type for automatic filter binding" ∧
    allAutoExpressions (some .bigInteger) true =
      .ok (["eq", "lt", "lte", "gt", "gte", "ne", "in", "not_in", "range"]
        ++ ["is_null"]) ∧
    allAutoExpressions (some .largeBinary) false =
      .error "Unsupported column type. Hint: use EXTRA_ALLOWED_FILTERS." :=
  ⟨(c7_all_sentinel true).1,
   ((c7_all_sentinel true).2 .bigInteger).2.2.2 rfl
     (.integer,
      ["eq", "lt", "lte", "gt", "gte", "ne", "in", "not_in", "range"]) rfl,
   ((c7_all_sentinel false).2 .largeBinary).1 (by decide)⟩

theorem dictLookup_cons {κ ν : Type} [DecidableEq κ] (e : κ × ν)
    (es : List (κ × ν)) (k : κ) :
    dictLookup (e :: es) k =
      if e.1 = k then some e.2 else dictLookup es k := by
  by_cases h : e.1 = k
  · rw [if_pos h]
    unfold dictLookup
    rw [List.find?_cons_of_pos _ (by simpa using h)]
    rfl
  · rw [if_neg h]
    unfold dictLookup
    rw [List.find?_cons_of_neg _ (by simpa using h)]

theorem dictLookup_update {κ ν : Type} [DecidableEq κ] (m : List (κ × ν))
    (k : κ) (v : ν) (x : κ) :
    dictLookup (dictUpdate m k v) x =
      if x = k then some v else dictLookup m x := by
  induction m with
  | nil =>
    rw [show dictUpdate ([] : List (κ × ν)) k v = [(k, v)] from rfl,
      dictLookup_cons]
    by_cases h : x = k
    · rw [if_pos h.symm, if_pos h]
    · rw [if_neg (fun he => h he.symm), if_neg h]
  | cons e es ih =>
    rw [show dictUpdate (e :: es) k v =
      if e.1 = k then (k, v) :: es else e :: dictUpdate es k v from rfl]
    by_cases he : e.1 = k
    · rw [if_pos he, dictLookup_cons, dictLookup_cons]
      by_cases h : x = k
      · rw [if_pos h.symm, if_pos h]
      · rw [if_neg (fun hx => h hx.symm), if_neg h,
          if_neg (fun hx => h (hx.symm.trans he))]
    · rw [if_neg he, dictLookup_cons, ih, dictLookup_cons]
      by_cases h : x = k
      · rw [if_pos h, if_pos h, if_neg (fun hx => he (hx.trans h))]
      · rw [if_neg h, if_neg h]

theorem dictLookup_buildObjects {κ ν : Type} [DecidableEq κ]
    (rows : List (κ × ν)) (k : κ) :
    dictLookup (buildObjects rows) k = lastAssoc rows k := by
  suffices h : ∀ m : List (κ × ν),
      dictLookup (rows.foldl (fun m r => dictUpdate m r.1 r.2) m) k =
        rows.foldl (fun acc r => if r.1 = k then some r.2 else acc)
          (dictLookup m k) from h []
  intro m
  induction rows generalizing m with
  | nil => rfl
  | cons r rs ih =>
    rw [List.foldl_cons, List.foldl_cons, ih]
    congr 1
    rw [dictLookup_update]
    by_cases h : r.1 = k
    · rw [if_pos h.symm, if_pos h]
    · rw [if_neg (fun hx => h hx.symm), if_neg h]

/-- C8: for every batch of parent keys, the nested loader returns one list
per requested key, in the batch's key order (the result is literally the
map of the per-key dict lookup over the batch); composite keys are tuples
(lists) of primary-key values; a key with no row in the grouped result
resolves to the empty list, never an error. -/
theorem c8_batch_load {κ ρ : Type} [DecidableEq κ] (rows : List (κ × List ρ))
    (keys : List κ) :
    batchLoadFn rows keys =
      keys.map (fun k => (lastAssoc rows k).getD []) ∧
    (batchLoadFn rows keys).length = keys.length ∧
    (∀ k : κ, k ∉ rows.map Prod.fst → lastAssoc rows k = none) := by
  refine ⟨?_, ?_, ?_⟩
  · unfold batchLoadFn
    simp only [dictLookup_buildObjects]
  · unfold batchLoadFn
    simp [List.length_map]
  · intro k hk
    unfold lastAssoc
    induction rows with
    | nil => rfl
    | cons r rs ih =>
      rw [List.foldl_cons,
        if_neg (fun h => hk (by rw [← h]; simp))]
      exact ih (fun h => hk (by simp [h]))

/-- C8 witness: composite tuple keys, batch order preserved, missing key
resolves to the empty list. -/
theorem c8_witness :
    batchLoadFn
        [([Val.vint 1, Val.vint 10], ["a"]),
         ([Val.vint 2, Val.vint 20], ["b", "c"])]
        [[Val.vint 2, Val.vint 20], [Val.vint 3, Val.vint 30],
         [Val.vint 1, Val.vint 10]] =
      [["b", "c"], [], ["a"]] ∧
    lastAssoc
        [([Val.vint 1, Val.vint 10], ["a"]),
         ([Val.vint 2, Val.vint 20], ["b", "c"])]
        [Val.vint 3, Val.vint 30] = none :=
  ⟨(c8_batch_load
      [([Val.vint 1, Val.vint 10], ["a"]),
       ([Val.vint 2, Val.vint 20], ["b", "c"])]
      [[Val.vint 2, Val.vint 20], [Val.vint 3, Val.vint 30],
       [Val.vint 1, Val.vint 10]]).1.trans rfl,
   (c8_batch_load
      [([Val.vint 1, Val.vint 10], ["a"]),
       ([Val.vint 2, Val.vint 20], ["b", "c"])]
      ([] : List (List Val))).2.2 [Val.vint 3, Val.vint 30] (by decide)⟩

/-- C9: a context that supports neither mapping-style nor attribute storage
makes `FilterSet.filter` emit the RuntimeWarning and proceed — the
translation outcome is the same as with a dict context, only the returned
context differs — while `_aliases_from_info` (and hence the deprecated
context-based `aliased` path) on such a context raises `RuntimeError`. -/
theorem c9_unsupported_context (env : Env) (reg : List (String × Str))
    (cf : List Str) (model : String) (q : SQuery) (t : FTree)
    (st : AliasSt) (entity : String) (name : Option String)
    (c0 : AliasCache) :
    (filterSetFilter env reg cf model .cplain q t).1 =
      [contextTypeWarning] ∧
    (filterSetFilter env reg cf model .cplain q t).2 =
      ((filterSetFilter env reg cf model (.cdict c0) q t).2).map
        (fun r => (r.1, Ctx.cplain)) ∧
    (filterSetFilter env reg cf model (.cdict c0) q t).1 = [] ∧
    aliasesFromInfo .cplain =
      .error "RuntimeError: Not supported with info.context type" ∧
    aliasedFromInfo .cplain st entity name =
      .error "RuntimeError: Not supported with info.context type" := by
  refine ⟨rfl, ?_, rfl, rfl, rfl⟩
  rw [filterSetFilter_run, filterSetFilter_run]
  show (translateMany env reg cf model none t) >>= _ =
    Except.map _ ((translateMany env reg cf model none t) >>= _)
  cases htm : translateMany env reg cf model none t with
  | error msg => simp [except_bind_error, Except.map]
  | ok es =>
    rw [except_bind_ok, except_bind_ok]
    cases hfin : finishLevel .jand none es <;>
      simp [hfin, Except.map, resetAliases]

theorem isNull_key_suffix_unique (f : Str) :
    ∀ p ∈ GRAPHQL_EXPRESSION_NAMES, p.2 ≠ [] →
      (DELIMITER :: p.2) <:+ (f ++ DELIMITER :: "is_null".data) →
      p = ("is_null", "is_null".data) := by
  intro p hp hne hsuf
  have hown : (DELIMITER :: "is_null".data) <:+
      (f ++ DELIMITER :: "is_null".data) := List.suffix_append f _
  fin_cases hp <;>
    first
      | rfl
      | exact absurd rfl hne
      | exact absurd (suffix_of_suffix_length_le hsuf hown (by decide))
          (by decide)
      | exact absurd (suffix_of_suffix_length_le hown hsuf (by decide))
          (by decide)

theorem split_isNull_key (f : Str) :
    splitGraphqlField (f ++ DELIMITER :: "is_null".data) =
      .ok (f, "is_null") := by
  have hkey : graphqlFilterKey f "is_null".data =
      f ++ DELIMITER :: "is_null".data := if_neg (by decide)
  have h := splitGraphqlField_roundtrip f "is_null" "is_null".data
    (by decide)
    (fun p hp hne hsuf => isNull_key_suffix_unique f p hp hne
      (hkey ▸ hsuf))
  rw [hkey] at h
  exact h

/-- C10: for a column attribute with the `is_null` operator, translating
`{attr_is_null: true}` produces the clause `attr IS NULL`
(`field.is_(None)`) and `{attr_is_null: false}` produces
`attr IS NOT NULL` (`field.isnot(None)`) — a false value is an active
negated test, not a no-op. -/
theorem c10_is_null_filter (env : Env) (model : String) (ctx : Ctx)
    (q : SQuery) (f : Str) (b : Bool)
    (hattr : findAttr (attrsOf env model) f = some (.column f none)) :
    (filterSetFilter env GRAPHQL_EXPRESSION_NAMES [] model ctx q
        (.fcons (f ++ DELIMITER :: "is_null".data) (.scalar (.vbool b))
          .fnil)).2 =
      .ok (q.filterBy (.andP (SPredList.ofList
        [.leaf (if b then .isNullL f else .isNotNullL f)])),
        (resetAliases ctx).1) := by
  have hlen : (f ++ DELIMITER :: "is_null".data).length = f.length + 8 := by
    rw [List.length_append]
    rfl
  have hka : ¬(f ++ DELIMITER :: "is_null".data = "and".data ∨
      f ++ DELIMITER :: "is_null".data = "or".data) := by
    rintro (h | h)
    · have hl := congrArg List.length h
      rw [hlen, show (("and".data : Str)).length = 3 from rfl] at hl
      omega
    · have hl := congrArg List.length h
      rw [hlen, show (("or".data : Str)).length = 2 from rfl] at hl
      omega
  have hkn : f ++ DELIMITER :: "is_null".data ≠ "not".data := by
    intro h
    have hl := congrArg List.length h
    rw [hlen, show (("not".data : Str)).length = 3 from rfl] at hl
    omega
  have hleaf : translateLeaf env model f "is_null" (.scalar (.vbool b)) =
      .ok (.rpred (.leaf (if b then .isNullL f else .isNotNullL f))) := by
    unfold translateLeaf
    rw [hattr]
    rfl
  rw [filterSetFilter_run]
  show (translateMany env GRAPHQL_EXPRESSION_NAMES [] model none
    (.fcons (f ++ DELIMITER :: "is_null".data) (.scalar (.vbool b))
      .fnil)) >>= _ = _
  rw [translateMany_cons,
    translateEntry_leaf_branch env GRAPHQL_EXPRESSION_NAMES [] model none
      (f ++ DELIMITER :: "is_null".data) (.scalar (.vbool b)) f "is_null"
      (by simp) hka hkn (split_isNull_key f) (by decide)
      (fun t h => FVal.noConfusion h),
    hleaf]
  simp [Except.map, except_bind_ok, translateMany, finishLevel,
    nonDictPreds, wrapParentAttr, JoinKind.apply, SPredList.ofList]

/-- C10 witness: `{balance_is_null: true}` yields `balance IS NULL`, and
`{balance_is_null: false}` yields `balance IS NOT NULL`. -/
theorem c10_witness :
    (filterSetFilter [("User", [SAttr.column "balance".data none])]
        GRAPHQL_EXPRESSION_NAMES [] "User" (.cdict []) ⟨[]⟩
        (.fcons ("balance".data ++ DELIMITER :: "is_null".data)
          (.scalar (.vbool true)) .fnil)).2 =
      .ok (⟨[.andP (SPredList.ofList [.leaf (.isNullL "balance".data)])]⟩,
        .cdict []) ∧
    (filterSetFilter [("User", [SAttr.column "balance".data none])]
        GRAPHQL_EXPRESSION_NAMES [] "User" (.cdict []) ⟨[]⟩
        (.fcons ("balance".data ++ DELIMITER :: "is_null".data)
          (.scalar (.vbool false)) .fnil)).2 =
      .ok (⟨[.andP (SPredList.ofList
        [.leaf (.isNotNullL "balance".data)])]⟩, .cdict []) :=
  ⟨c10_is_null_filter [("User", [SAttr.column "balance".data none])] "User"
      (.cdict []) ⟨[]⟩ "balance".data true rfl,
   c10_is_null_filter [("User", [SAttr.column "balance".data none])] "User"
      (.cdict []) ⟨[]⟩ "balance".data false rfl⟩
